import Mathlib

/-
Verification of `af_office_scrape.py`: a shallow embedding of the scraper
pipeline (HTTP page fetching, pandas-style JSON flattening, snapshot
writing, archive combining, heartbeat ping) together with proofs of the
specified properties.

Modelling conventions:
* JSON values are the inductive `JVal`; JSON `null` and pandas `NaN` are
  both `JVal.nan` (pandas treats `None` as missing data).  JSON numbers are
  modelled as integers; no claim depends on the numeric representation.
* A pandas `DataFrame` is a list of column labels plus a list of rows; a row
  is an association list from column label to value.  A label absent from a
  row reads as `nan`, matching the NaN fill of `pandas.concat`.
* HTTP is an oracle `pages : Nat → Response` giving, for each page index,
  the status code and decoded JSON array of the response.
* Python exceptions are modelled with `Except String`: `pandas`
  (version ≥ 1.0) raises `KeyError` when `df[cols]` requests an absent
  column, and `pd.concat` raises `ValueError` on an empty list of frames.
* The unbounded `while True` pagination loop is modelled with explicit
  fuel; theorems about the loop hold for every sufficiently large fuel.
* File writes are modelled as pure state: the snapshot directory is a list
  of (file name, table) pairs, and the run state additionally records the
  combined output, how often the Archive Combiner ran, and how many
  heartbeat requests were issued.
-/

/-- A JSON value as seen by `response.json()` / `pandas`.  `nan` stands for
JSON `null`, a missing field, and pandas `NaN` alike. -/
inductive JVal where
  | nan
  | bool (b : Bool)
  | int (n : Int)
  | str (s : String)
  | arr (xs : List JVal)
  | obj (fields : List (String × JVal))
deriving Repr

/-- Is this value pandas-missing data (`NaN`/`None`)?  Used to model
`Series.dropna`. -/
def JVal.isNan : JVal → Bool
  | .nan => true
  | _ => false

/-- One row of a flattened table: an association list from column label to
cell value. -/
abbrev Row := List (String × JVal)

/-- Read a cell of a row; a label that is not bound reads as `NaN`,
matching the NaN fill pandas applies to unaligned concatenations. -/
def Row.get (row : Row) (c : String) : JVal := (List.lookup c row).getD .nan

/-- A pandas `DataFrame`: ordered column labels plus rows. -/
structure DataFrame where
  cols : List String
  rows : List Row
deriving Repr

/-- First-occurrence deduplication of labels (`seen` accumulates labels
already emitted).  Pandas orders unioned columns by first appearance. -/
def dedupFirst : List String → List String → List String
  | [], _ => []
  | x :: xs, seen => if x ∈ seen then dedupFirst xs seen else x :: dedupFirst xs (x :: seen)

mutual
/-- `pd.json_normalize` on a single field: a nested object is flattened
into dot-separated paths below `key`; any other value (scalars and arrays
alike) is kept whole under `key`. -/
def flattenWith (key : String) : JVal → Row
  | .obj fs => flattenObj (key ++ ".") fs
  | v => [(key, v)]

/-- Flatten the fields of an object, prefixing every label with `keyPre`. -/
def flattenObj (keyPre : String) : List (String × JVal) → Row
  | [] => []
  | (k, v) :: rest => flattenWith (keyPre ++ k) v ++ flattenObj keyPre rest
end

/-- Flatten one JSON record into a row, as `pd.json_normalize` does for one
element of its input list (nested objects become dotted columns, arrays are
kept as cell values). -/
def flattenRecord : JVal → Row
  | .obj fs => flattenObj "" fs
  | _ => []

/-- `pd.json_normalize(records)` (source line 26): one row per record,
columns in first-appearance order. -/
def json_normalize (records : List JVal) : DataFrame :=
  { cols := dedupFirst ((records.map (fun r => (flattenRecord r).map Prod.fst)).flatten) [],
    rows := records.map flattenRecord }

/-- `Series.explode` on one row (source line 31): a non-empty array yields
one copy of the row per element; an empty array yields a single row with
the cell set to `NaN`; a non-array cell (including `NaN` for a record that
lacks the field) is left as a single unchanged row. -/
def explodeRow (c : String) (row : Row) : List Row :=
  match Row.get row c with
  | .arr [] => [(c, JVal.nan) :: row]
  | .arr xs => xs.map (fun x => (c, x) :: row)
  | _ => [row]

/-- Number of rows `explodeRow` produces for a cell value. -/
def expCount : JVal → Nat
  | .arr [] => 1
  | .arr xs => xs.length
  | _ => 1

/-- `df.explode(c)` (source line 31). -/
def explode (c : String) (df : DataFrame) : DataFrame :=
  { cols := df.cols, rows := (df.rows.map (explodeRow c)).flatten }

/-- Remove every binding of label `c` from a row. -/
def removeKey (c : String) : Row → Row
  | [] => []
  | (k, v) :: rest => if k = c then removeKey c rest else (k, v) :: removeKey c rest

/-- `df.drop(columns=[c])` (source line 38). -/
def dropCol (c : String) (df : DataFrame) : DataFrame :=
  { cols := df.cols.filter (fun k => !(k == c)), rows := df.rows.map (removeKey c) }

/-- `pd.concat(dfs, axis=0)` with positional (reset) indices: rows are
appended in order, columns are unioned in first-appearance order, and a row
missing a column reads `NaN` (source lines 35 and 68). -/
def concatRows (dfs : List DataFrame) : DataFrame :=
  { cols := dedupFirst ((dfs.map DataFrame.cols).flatten) [],
    rows := (dfs.map DataFrame.rows).flatten }

/-- Positional row alignment for `pd.concat(axis=1)` after both sides'
indices were reset: the i-th rows are joined; when one side is exhausted
the other side's rows stand alone (their missing labels read `NaN`). -/
def zipPad : List Row → List Row → List Row
  | [], ys => ys
  | r :: xs, [] => r :: zipPad xs []
  | r :: xs, s :: ys => (r ++ s) :: zipPad xs ys

/-- `pd.concat([a, b], axis=1)` after `reset_index(drop=True)` on both
sides (source line 39): a purely positional join. -/
def concatCols (a b : DataFrame) : DataFrame :=
  { cols := a.cols ++ b.cols, rows := zipPad a.rows b.rows }

/-- The values of the exploded `adresser` column after `.dropna()`
(source line 34): the series the per-address `json_normalize` is applied
to. -/
def pageVals (records : List JVal) : List JVal :=
  ((explode "adresser" (json_normalize records)).rows.map
      (fun row => Row.get row "adresser")).filter (fun v => !v.isNan)

/-- The page-flattening part of `fetch_data` (source lines 26–41): flatten
the records, and if an `adresser` column exists, explode it, normalize the
non-missing address objects into their own one-row frames, stack those
positionally (`pd.concat` raises `ValueError` when `.dropna()` left
nothing), drop the raw `adresser` column and join the address details back
positionally. -/
def flatten_page (records : List JVal) : Except String DataFrame :=
  if "adresser" ∈ (json_normalize records).cols then
    if (pageVals records).isEmpty then
      .error "ValueError: No objects to concatenate"
    else
      .ok (concatCols (dropCol "adresser" (explode "adresser" (json_normalize records)))
        (concatRows ((pageVals records).map (fun v => json_normalize [v]))))
  else .ok (json_normalize records)

/-- One HTTP response for a page request: status code and decoded JSON
array. -/
structure Response where
  status : Nat
  body : List JVal

/-- `fetch_data` (source lines 6–44) without its logging: on status 200
with an empty array, or on any other status, signal "no more pages"
(`none`); on status 200 with data, return the flattened page. -/
def fetch_data (resp : Response) : Except String (Option DataFrame) :=
  if resp.status = 200 then
    if resp.body.isEmpty then .ok none
    else
      match flatten_page resp.body with
      | .error e => .error e
      | .ok df => .ok (some df)
  else .ok none

/-- The console output of `fetch_data` for a page (source line 43): the
non-200 branch prints an error naming the page index. -/
def fetch_log (page : Nat) (resp : Response) : List String :=
  if resp.status = 200 then []
  else ["Error: Unable to fetch data from page " ++ toString page]

/-- The pagination loop of `save_combined_data` (source lines 55–64),
with explicit fuel standing in for the unbounded `while True`.  Returns
the collected page tables together with the list of page indices that were
requested. -/
def fetchLoop (pages : Nat → Response) : Nat → Nat → Except String (List DataFrame × List Nat)
  | 0, _ => .ok ([], [])
  | fuel + 1, n =>
    match fetch_data (pages n) with
    | .error e => .error e
    | .ok none => .ok ([], [n])
    | .ok (some df) =>
      match fetchLoop pages fuel (n + 1) with
      | .error e => .error e
      | .ok (ds, reqs) => .ok (df :: ds, n :: reqs)

/-- `df[c] = v` for a scalar `v` (source line 72): a new column is appended
at the end; an existing column is overwritten. -/
def setColumn (df : DataFrame) (c : String) (v : JVal) : DataFrame :=
  { cols := if c ∈ df.cols then df.cols else df.cols ++ [c],
    rows := df.rows.map (fun row => (c, v) :: row) }

/-- `df.rename(columns=m)`: a label in the mapping is replaced, any other
label kept. -/
def renameKey (m : List (String × String)) (k : String) : String :=
  (List.lookup k m).getD k

/-- `df.rename(columns=m)` (source line 89). -/
def renameCols (m : List (String × String)) (df : DataFrame) : DataFrame :=
  { cols := df.cols.map (renameKey m),
    rows := df.rows.map (fun row => row.map (fun p => (renameKey m p.1, p.2))) }

/-- The fixed column mapping of `save_combined_data` (source lines 75–88). -/
def column_mapping : List (String × String) :=
  [("id", "id"),
   ("namn", "namn"),
   ("nyval_tillatet", "nyval_tillatet"),
   ("adressid", "adresser.adressid"),
   ("adressrad", "adresser.adressrad"),
   ("postnummer", "adresser.postnummer"),
   ("postort", "adresser.postort"),
   ("koordinater.latitud", "adresser.koordinater.latitud"),
   ("koordinater.longitud", "adresser.koordinater.longitud"),
   ("koordinater.north", "adresser.koordinater.north"),
   ("koordinater.east", "adresser.koordinater.east"),
   ("datum", "datum")]

/-- `required_columns = list(column_mapping.values())` (source line 92). -/
def required_columns : List String := column_mapping.map Prod.snd

/-- `df[cs]` (source line 93): the table restricted to exactly the listed
columns in the listed order.  Pandas (≥ 1.0) raises `KeyError` when any
requested column is absent. -/
def selectCols (df : DataFrame) (cs : List String) : Except String DataFrame :=
  if ∀ c ∈ cs, c ∈ df.cols then .ok { cols := cs, rows := df.rows }
  else .error "KeyError"

/-- Outcome of `save_combined_data`: the returned success flag and the
snapshot file it wrote, if any. -/
structure SaveResult where
  ok : Bool
  written : Option (String × DataFrame)

/-- `save_combined_data` (source lines 46–106): fetch pages from index 1
until the no-more-pages signal, and if any page yielded data, concatenate,
stamp the run date into a `datum` column, rename through the fixed
mapping, restrict to the mapped columns and write the dated snapshot file,
returning `True`; with no data, return `False` and write nothing.
`today` is the single `datetime.now().strftime("%Y-%m-%d")` value of the
run (source line 71). -/
def save_combined_data (pages : Nat → Response) (today : String) (fuel : Nat) :
    Except String SaveResult :=
  match fetchLoop pages fuel 1 with
  | .error e => .error e
  | .ok (all_data, _) =>
    if all_data.isEmpty then .ok { ok := false, written := none }
    else
      match selectCols (renameCols column_mapping
          (setColumn (concatRows all_data) "datum" (.str today))) required_columns with
      | .error e => .error e
      | .ok out =>
        .ok { ok := true,
              written := some ("office_location_" ++ today ++ ".csv", out) }

/-- `file.endswith(".csv")` (source line 116), modelled over the character
lists of the strings. -/
def strEndsWith (s suf : String) : Bool := suf.data.isSuffixOf s.data

/-- `combine_all_csvs` (source lines 108–127): concatenate every `.csv`
file of the snapshot directory, in listing order, into one table; `none`
(a logged no-op) when there is no such file.  The directory is modelled as
(file name, table content) pairs; a CSV round-trip preserves rows and
columns. -/
def combine_all_csvs (dataFolder : List (String × DataFrame)) : Option DataFrame :=
  if (dataFolder.filter (fun p => strEndsWith p.1 ".csv")).isEmpty then none
  else some (concatRows ((dataFolder.filter (fun p => strEndsWith p.1 ".csv")).map Prod.snd))

/-- The files the Archive Combiner touches: the snapshot directory it
reads, and the combined output file it writes — which lives in the parent
directory (source line 113), outside the snapshot directory, so it is
never an input of a later combine. -/
structure ArchiveState where
  dataFolder : List (String × DataFrame)
  combined : Option DataFrame
deriving Repr

/-- One invocation of the Archive Combiner over the filesystem. -/
def run_combine (st : ArchiveState) : ArchiveState :=
  match combine_all_csvs st.dataFolder with
  | none => st
  | some df => { st with combined := some df }

/-- Write (create or overwrite) a named file in a directory listing. -/
def writeFile (folder : List (String × DataFrame)) (name : String) (df : DataFrame) :
    List (String × DataFrame) :=
  if name ∈ folder.map Prod.fst then
    folder.map (fun p => if p.1 = name then (name, df) else p)
  else folder ++ [(name, df)]

/-- Observable state of one script run: the snapshot directory, the
combined output file, how often the Archive Combiner was invoked, and how
many heartbeat requests were issued. -/
structure RunState where
  dataFolder : List (String × DataFrame)
  combined : Option DataFrame
  combineCalls : Nat
  heartbeats : Nat
deriving Repr

/-- Persist the snapshot file `save_combined_data` produced, if any
(source line 101). -/
def write_step (st : RunState) (r : SaveResult) : RunState :=
  match r.written with
  | some (name, df) => { st with dataFolder := writeFile st.dataFolder name df }
  | none => st

/-- One invocation of the Archive Combiner inside a run (source line 133),
counted. -/
def combine_step (st : RunState) : RunState :=
  match combine_all_csvs st.dataFolder with
  | none => { st with combineCalls := st.combineCalls + 1 }
  | some df => { st with combined := some df, combineCalls := st.combineCalls + 1 }

/-- The whole script (source lines 129–135): run `save_combined_data`,
write its snapshot, invoke the Archive Combiner exactly when the save
returned `True`, and finally issue the heartbeat GET.  An uncaught
exception aborts the run before the heartbeat line is reached. -/
def script_run (pages : Nat → Response) (today : String) (fuel : Nat) (st : RunState) :
    Except String RunState :=
  match save_combined_data pages today fuel with
  | .error e => .error e
  | .ok r =>
    .ok { (if r.ok then combine_step (write_step st r) else write_step st r) with
          heartbeats :=
            (if r.ok then combine_step (write_step st r) else write_step st r).heartbeats + 1 }

/-- Per-record row multiplicity of the address explosion: how many rows of
the flattened page a record accounts for. -/
def rowMult (rec : JVal) : Nat := expCount (Row.get (flattenRecord rec) "adresser")

/-- The scalar (non-address) part of a flattened record: its flattened
fields with the raw `adresser` column dropped. -/
def scalarRow (rec : JVal) : Row := removeKey "adresser" (flattenRecord rec)

/-- The address list of a record as the explosion sees it ([] when the
field is absent or not an array). -/
def addrsOf (rec : JVal) : List JVal :=
  match Row.get (flattenRecord rec) "adresser" with
  | .arr xs => xs
  | _ => []

/- Concrete inputs for witnesses and counterexamples. -/

/-- A fully populated address record. -/
def adr1 : JVal :=
  .obj [("adressid", .str "A1"), ("adressrad", .str "Gatan 1"),
    ("postnummer", .str "11111"), ("postort", .str "Stad"),
    ("koordinater", .obj [("latitud", .int 59), ("longitud", .int 18),
      ("north", .int 6581000), ("east", .int 674000)])]

/-- A second fully populated address record. -/
def adr2 : JVal :=
  .obj [("adressid", .str "A2"), ("adressrad", .str "Vagen 2"),
    ("postnummer", .str "22222"), ("postort", .str "Byn"),
    ("koordinater", .obj [("latitud", .int 60), ("longitud", .int 19),
      ("north", .int 6690000), ("east", .int 680000)])]

/-- A provider record with one address. -/
def rec1 : JVal :=
  .obj [("id", .str "p1"), ("namn", .str "Bolag A"),
    ("nyval_tillatet", .bool true), ("adresser", .arr [adr1])]

/-- A provider record with two addresses. -/
def rec2 : JVal :=
  .obj [("id", .str "p2"), ("namn", .str "Bolag B"),
    ("nyval_tillatet", .bool false), ("adresser", .arr [adr1, adr2])]

/-- A well-formed API: page 1 carries two providers, page 2 is empty. -/
def pagesOK : Nat → Response :=
  fun n => if n = 1 then ⟨200, [rec1, rec2]⟩ else ⟨200, []⟩

/-- A record with no nested fields at all. -/
def recPlain : JVal := .obj [("id", .int 5)]

/-- An API whose pages 1 and 2 carry data and whose page 3 fails with
status 404. -/
def pagesW3 : Nat → Response :=
  fun n => if n ≤ 2 then ⟨200, [recPlain]⟩ else ⟨404, []⟩

/-- A provider record carrying one address. -/
def recWithAddr : JVal :=
  .obj [("id", .int 1), ("adresser", .arr [.obj [("adressid", .int 10)]])]

/-- A provider record whose address-list field is absent entirely. -/
def recNoAddr : JVal := .obj [("id", .int 2)]

/-- An API whose only record lacks most mapped fields (page 1 has data,
page 2 is empty). -/
def pagesCx1 : Nat → Response :=
  fun n => if n = 1 then ⟨200, [.obj [("namn", .str "X")]]⟩ else ⟨200, []⟩

/-- An API whose only record has just an `id` field. -/
def pagesCx5 : Nat → Response :=
  fun n => if n = 1 then ⟨200, [.obj [("id", .int 7)]]⟩ else ⟨200, []⟩

/-- An API whose very first page is empty: no page yields data. -/
def pagesNone : Nat → Response := fun _ => ⟨200, []⟩

/-- An empty run state. -/
def st0 : RunState := ⟨[], none, 0, 0⟩

/-- A table of `n` empty rows (only row counts matter to the combine
claims). -/
def dfR (n : Nat) : DataFrame := ⟨[], List.replicate n []⟩

/-- A snapshot directory with three dated CSV files of 5, 7 and 2 rows and
one non-CSV file. -/
def folder6 : List (String × DataFrame) :=
  [("office_location_2025-01-01.csv", dfR 5),
   ("office_location_2025-01-02.csv", dfR 7),
   ("notes.txt", dfR 99),
   ("office_location_2025-01-03.csv", dfR 2)]

/- Library of structural lemmas about the embedding. -/

theorem mem_dedupFirst {l seen : List String} {a : String} :
    a ∈ dedupFirst l seen ↔ a ∈ l ∧ a ∉ seen := by
  induction l generalizing seen with
  | nil => simp [dedupFirst]
  | cons x xs ih =>
    by_cases hx : x ∈ seen
    · rw [dedupFirst, if_pos hx, ih]
      constructor
      · rintro ⟨h1, h2⟩
        exact ⟨List.mem_cons_of_mem _ h1, h2⟩
      · rintro ⟨h1, h2⟩
        rcases List.mem_cons.mp h1 with rfl | h1
        · exact absurd hx h2
        · exact ⟨h1, h2⟩
    · rw [dedupFirst, if_neg hx]
      constructor
      · intro h
        rcases List.mem_cons.mp h with rfl | h
        · exact ⟨List.mem_cons_self .., hx⟩
        · obtain ⟨h1, h2⟩ := ih.mp h
          have h3 : a ∉ seen := fun hs => h2 (List.mem_cons_of_mem _ hs)
          exact ⟨List.mem_cons_of_mem _ h1, h3⟩
      · rintro ⟨h1, h2⟩
        rcases List.mem_cons.mp h1 with rfl | h1
        · exact List.mem_cons_self ..
        · by_cases hax : a = x
          · subst hax; exact List.mem_cons_self ..
          · refine List.mem_cons_of_mem _ (ih.mpr ⟨h1, ?_⟩)
            simp [List.mem_cons, hax, h2]

theorem mem_json_normalize_cols {records : List JVal} {c : String} :
    c ∈ (json_normalize records).cols ↔
      ∃ r ∈ records, c ∈ (flattenRecord r).map Prod.fst := by
  unfold json_normalize
  simp only [mem_dedupFirst, List.mem_flatten]
  constructor
  · rintro ⟨⟨s, hs, hc⟩, -⟩
    obtain ⟨r, hr, rfl⟩ := List.mem_map.mp hs
    exact ⟨r, hr, hc⟩
  · rintro ⟨r, hr, hc⟩
    exact ⟨⟨_, List.mem_map_of_mem _ hr, hc⟩, by simp⟩

theorem lookup_mem_keys {β : Type} {l : List (String × β)} {a : String} {v : β}
    (h : List.lookup a l = some v) : a ∈ l.map Prod.fst := by
  induction l with
  | nil => simp [List.lookup] at h
  | cons p t ih =>
    obtain ⟨k, w⟩ := p
    by_cases hk : a == k
    · simp only [List.lookup, hk] at h
      simp at hk
      simp [hk]
    · simp only [List.lookup, hk] at h
      simpa using Or.inr (ih h)

theorem lookup_eq_none_of_not_mem {β : Type} {l : List (String × β)} {a : String}
    (h : a ∉ l.map Prod.fst) : List.lookup a l = none := by
  induction l with
  | nil => rfl
  | cons p t ih =>
    obtain ⟨k, w⟩ := p
    simp only [List.map_cons, List.mem_cons] at h
    push_neg at h
    have hk : (a == k) = false := by simp [h.1]
    simp only [List.lookup, hk]
    exact ih h.2

theorem Row.get_cons_self (c : String) (v : JVal) (row : Row) :
    Row.get ((c, v) :: row) c = v := by
  simp [Row.get, List.lookup]

theorem removeKey_of_lookup_none {c : String} {row : Row}
    (h : List.lookup c row = none) : removeKey c row = row := by
  induction row with
  | nil => rfl
  | cons p t ih =>
    obtain ⟨k, w⟩ := p
    by_cases hk : c = k
    · subst hk
      simp [List.lookup_cons] at h
    · have hbe : (c == k) = false := by simp [hk]
      rw [List.lookup_cons, hbe] at h
      have hkc : ¬ k = c := fun hh => hk hh.symm
      simp [removeKey, hkc, ih h]

theorem removeKey_cons_same (c : String) (v : JVal) (row : Row) :
    removeKey c ((c, v) :: row) = removeKey c row := by
  simp [removeKey]

theorem zipPad_nil_right : ∀ xs : List Row, zipPad xs [] = xs
  | [] => rfl
  | _ :: xs => by rw [zipPad, zipPad_nil_right xs]

theorem zipPad_length : ∀ xs ys : List Row, (zipPad xs ys).length = max xs.length ys.length
  | [], ys => by simp [zipPad]
  | r :: xs, [] => by simp [zipPad, zipPad_length xs []]
  | r :: xs, s :: ys => by
    simp only [zipPad, List.length_cons, zipPad_length xs ys]
    omega

theorem zipPad_getElem? :
    ∀ (xs ys : List Row) (i : Nat) (row : Row), xs[i]? = some row →
      ∃ ext, (zipPad xs ys)[i]? = some (row ++ ext)
  | [], _, i, row => by simp
  | x :: xs, [], 0, row => by
    intro h
    simp only [List.getElem?_cons_zero, Option.some.injEq] at h
    subst h
    exact ⟨[], by simp [zipPad]⟩
  | x :: xs, [], i + 1, row => by
    intro h
    simp only [List.getElem?_cons_succ] at h
    obtain ⟨ext, hext⟩ := zipPad_getElem? xs [] i row h
    exact ⟨ext, by simpa [zipPad] using hext⟩
  | x :: xs, y :: ys, 0, row => by
    intro h
    simp only [List.getElem?_cons_zero, Option.some.injEq] at h
    subst h
    exact ⟨y, by simp [zipPad]⟩
  | x :: xs, y :: ys, i + 1, row => by
    intro h
    simp only [List.getElem?_cons_succ] at h
    obtain ⟨ext, hext⟩ := zipPad_getElem? xs ys i row h
    exact ⟨ext, by simpa [zipPad] using hext⟩

theorem zipPad_append :
    ∀ (xs ys xs2 ys2 : List Row), xs.length = ys.length →
      zipPad (xs ++ xs2) (ys ++ ys2) = zipPad xs ys ++ zipPad xs2 ys2
  | [], [], xs2, ys2, _ => rfl
  | [], y :: ys, _, _, h => by simp at h
  | x :: xs, [], _, _, h => by simp at h
  | x :: xs, y :: ys, xs2, ys2, h => by
    simp only [List.length_cons, Nat.add_right_cancel_iff] at h
    simp only [List.cons_append, zipPad, List.append_eq]
    rw [zipPad_append xs ys xs2 ys2 h]

theorem zipPad_map_const (s : Row) (g : JVal → Row) :
    ∀ vals : List JVal,
      zipPad (vals.map (fun _ => s)) (vals.map g) = vals.map (fun a => s ++ g a)
  | [] => rfl
  | v :: vals => by
    simp only [List.map_cons, zipPad]
    rw [zipPad_map_const s g vals]

theorem explodeRow_length (c : String) (row : Row) :
    (explodeRow c row).length = expCount (Row.get row c) := by
  unfold explodeRow expCount
  rcases Row.get row c with _ | _ | _ | _ | xs | _ <;> try rfl
  rcases xs with _ | ⟨x, xs⟩ <;> simp

theorem explodeRow_of_arr {c : String} {row : Row} {xs : List JVal}
    (h : Row.get row c = .arr xs) (hne : xs ≠ []) :
    explodeRow c row = xs.map (fun x => (c, x) :: row) := by
  unfold explodeRow
  rw [h]
  rcases xs with _ | ⟨x, xs⟩
  · exact absurd rfl hne
  · rfl

theorem explodeRow_of_get_nan {c : String} {row : Row}
    (h : Row.get row c = .nan) : explodeRow c row = [row] := by
  unfold explodeRow
  rw [h]

theorem get_of_lookup_none {c : String} {row : Row}
    (h : List.lookup c row = none) : Row.get row c = .nan := by
  simp [Row.get, h]

theorem get_of_lookup_some {c : String} {row : Row} {v : JVal}
    (h : List.lookup c row = some v) : Row.get row c = v := by
  simp [Row.get, h]

theorem lookup_some_of_get_arr {c : String} {row : Row} {xs : List JVal}
    (h : Row.get row c = .arr xs) : List.lookup c row = some (.arr xs) := by
  unfold Row.get at h
  rcases hl : List.lookup c row with _ | v
  · rw [hl] at h
    simp at h
  · rw [hl] at h
    simp at h
    rw [h]

theorem flatMap_block {α : Type} (g : α → List Row) (pre post : List α) (r : α) (i : Nat)
    (hi : i < (g r).length) :
    ((pre ++ r :: post).flatMap g)[(pre.map (fun x => (g x).length)).sum + i]? = (g r)[i]? := by
  rw [List.flatMap_append, List.flatMap_cons]
  have hlen : (pre.flatMap g).length = (pre.map (fun x => (g x).length)).sum :=
    List.length_flatMap ..
  rw [List.getElem?_append_right (by omega), hlen]
  have : (pre.map (fun x => (g x).length)).sum + i - (pre.map (fun x => (g x).length)).sum = i := by
    omega
  rw [this, List.getElem?_append_left hi]

theorem flatten_map_single {α β : Type} (f : α → List β) :
    ∀ l : List α, (l.map (fun v => [f v])).flatten = l.map f
  | [] => rfl
  | x :: l => by simp [flatten_map_single f l]

theorem flatten_page_of_not_mem {records : List JVal}
    (h : "adresser" ∉ (json_normalize records).cols) :
    flatten_page records = .ok (json_normalize records) := by
  unfold flatten_page
  rw [if_neg h]

theorem flatten_page_of_mem {records : List JVal}
    (h1 : "adresser" ∈ (json_normalize records).cols)
    (h2 : (pageVals records).isEmpty = false) :
    flatten_page records =
      .ok (concatCols (dropCol "adresser" (explode "adresser" (json_normalize records)))
        (concatRows ((pageVals records).map (fun v => json_normalize [v])))) := by
  unfold flatten_page
  rw [if_pos h1, h2]
  simp

theorem flatten_page_error {records : List JVal}
    (h1 : "adresser" ∈ (json_normalize records).cols)
    (h2 : (pageVals records).isEmpty = true) :
    flatten_page records = .error "ValueError: No objects to concatenate" := by
  unfold flatten_page
  rw [if_pos h1, h2]
  simp

theorem page_base_rows (records : List JVal) :
    (dropCol "adresser" (explode "adresser" (json_normalize records))).rows =
      records.flatMap (fun rec =>
        (explodeRow "adresser" (flattenRecord rec)).map (removeKey "adresser")) := by
  simp only [dropCol, explode, json_normalize, List.map_flatten, List.map_map,
    List.flatMap_def]
  rfl

theorem page_vals_eq (records : List JVal) :
    pageVals records =
      (records.flatMap (fun rec =>
        (explodeRow "adresser" (flattenRecord rec)).map
          (fun row => Row.get row "adresser"))).filter (fun v => !v.isNan) := by
  simp only [pageVals, explode, json_normalize, List.map_flatten, List.map_map,
    List.flatMap_def]
  rfl

theorem page_details_rows (vals : List JVal) :
    (concatRows (vals.map (fun v => json_normalize [v]))).rows = vals.map flattenRecord := by
  simp only [concatRows, json_normalize, List.map_map]
  exact flatten_map_single _ vals

theorem sum_map_one {α : Type} (l : List α) (f : α → Nat) (h : ∀ x ∈ l, f x = 1) :
    (l.map f).sum = l.length := by
  rw [List.map_congr_left h]
  simp

theorem page_base_length (records : List JVal) :
    (dropCol "adresser" (explode "adresser" (json_normalize records))).rows.length =
      (records.map rowMult).sum := by
  rw [page_base_rows, List.length_flatMap]
  congr 1
  refine List.map_congr_left fun rec _ => ?_
  simp only [Function.comp_apply, List.length_map, explodeRow_length]
  rfl

theorem page_vals_length_le (records : List JVal) :
    (pageVals records).length ≤ (records.map rowMult).sum := by
  rw [page_vals_eq]
  calc ((records.flatMap fun rec =>
          (explodeRow "adresser" (flattenRecord rec)).map
            (fun row => Row.get row "adresser")).filter (fun v => !v.isNan)).length
      ≤ (records.flatMap fun rec =>
          (explodeRow "adresser" (flattenRecord rec)).map
            (fun row => Row.get row "adresser")).length := List.length_filter_le ..
    _ = (records.map rowMult).sum := by
        rw [List.length_flatMap]
        congr 1
        refine List.map_congr_left fun rec _ => ?_
        simp only [Function.comp_apply, List.length_map, explodeRow_length]
        rfl

theorem rowMult_of_lookup_none {rec : JVal}
    (h : List.lookup "adresser" (flattenRecord rec) = none) : rowMult rec = 1 := by
  unfold rowMult
  rw [get_of_lookup_none h]
  rfl

theorem rowMult_of_not_keys {records : List JVal} {rec : JVal}
    (hcols : "adresser" ∉ (json_normalize records).cols) (hrec : rec ∈ records) :
    rowMult rec = 1 := by
  refine rowMult_of_lookup_none (lookup_eq_none_of_not_mem fun hk => hcols ?_)
  exact mem_json_normalize_cols.mpr ⟨rec, hrec, hk⟩

/-- Total row count of a successfully flattened page: each record accounts
for `rowMult` rows. -/
theorem flatten_page_length {records : List JVal} {df : DataFrame}
    (hok : flatten_page records = .ok df) :
    df.rows.length = (records.map rowMult).sum := by
  by_cases h1 : "adresser" ∈ (json_normalize records).cols
  · rcases h2 : (pageVals records).isEmpty with _ | _
    · rw [flatten_page_of_mem h1 h2] at hok
      cases hok
      simp only [concatCols, zipPad_length, page_base_length, page_details_rows,
        List.length_map]
      exact Nat.max_eq_left (page_vals_length_le records)
    · rw [flatten_page_error h1 h2] at hok
      cases hok
  · rw [flatten_page_of_not_mem h1] at hok
    cases hok
    simp only [json_normalize, List.length_map]
    exact (sum_map_one records rowMult fun rec hrec => rowMult_of_not_keys h1 hrec).symm

theorem selectCols_ok {df out : DataFrame} {cs : List String}
    (h : selectCols df cs = .ok out) : out.cols = cs ∧ out.rows = df.rows := by
  unfold selectCols at h
  split at h
  · cases h; exact ⟨rfl, rfl⟩
  · cases h

theorem fetchLoop_range (pages : Nat → Response) :
    ∀ fuel start m : Nat, start ≤ m → m < start + fuel →
      (∀ i, start ≤ i → i < m → ∃ df, fetch_data (pages i) = .ok (some df)) →
      fetch_data (pages m) = .ok none →
      ∃ ds, fetchLoop pages fuel start = .ok (ds, List.range' start (m - start + 1)) := by
  intro fuel
  induction fuel with
  | zero =>
    intro start m h1 h2 _ _
    omega
  | succ f ih =>
    intro start m h1 h2 hsome hnone
    by_cases hs : start = m
    · subst hs
      exact ⟨[], by simp [fetchLoop, hnone]⟩
    · have hlt : start < m := lt_of_le_of_ne h1 hs
      obtain ⟨df, hdf⟩ := hsome start le_rfl hlt
      obtain ⟨ds, hds⟩ :=
        ih (start + 1) m hlt (by omega) (fun i hi1 hi2 => hsome i (by omega) hi2) hnone
      refine ⟨df :: ds, ?_⟩
      have hk : m - start + 1 = (m - (start + 1) + 1) + 1 := by omega
      have hr : List.range' start (m - start + 1) =
          start :: List.range' (start + 1) (m - (start + 1) + 1) := by
        rw [hk, List.range'_succ]
      rw [hr]
      simp only [fetchLoop, hdf, hds]

theorem write_step_heartbeats (st : RunState) (r : SaveResult) :
    (write_step st r).heartbeats = st.heartbeats := by
  unfold write_step
  split <;> rfl

theorem combine_step_heartbeats (st : RunState) :
    (combine_step st).heartbeats = st.heartbeats := by
  unfold combine_step
  split <;> rfl

/- The claims. -/

/-- Claim C3: confirmed.  The Page Fetcher returns the same "no more
pages" signal (`none`) on HTTP 200 with an empty JSON array and on any
non-2xx status (logging the page index in the latter case); the pagination
loop starts at page 1, increments by 1, stops the first time the signal
occurs (requesting exactly pages 1..m when page m is the first to signal),
and never requests any page more than once. -/
theorem pagination_contract :
    (∀ resp : Response, resp.status = 200 → resp.body = [] → fetch_data resp = .ok none) ∧
    (∀ (page : Nat) (resp : Response), ¬ (200 ≤ resp.status ∧ resp.status ≤ 299) →
      fetch_data resp = .ok none ∧
      fetch_log page resp = ["Error: Unable to fetch data from page " ++ toString page]) ∧
    (∀ (pages : Nat → Response) (m fuel : Nat), 1 ≤ m → m ≤ fuel →
      (∀ i, 1 ≤ i → i < m → ∃ df, fetch_data (pages i) = .ok (some df)) →
      fetch_data (pages m) = .ok none →
      ∃ ds, fetchLoop pages fuel 1 = .ok (ds, List.range' 1 m) ∧
        (List.range' 1 m).Nodup) := by
  refine ⟨?_, ?_, ?_⟩
  · intro resp h200 hbody
    unfold fetch_data
    rw [if_pos h200, hbody]
    rfl
  · intro page resp hst
    have h200 : ¬ resp.status = 200 := fun h => hst (by omega)
    constructor
    · unfold fetch_data
      rw [if_neg h200]
    · unfold fetch_log
      rw [if_neg h200]
  · intro pages m fuel h1 hf hsome hnone
    obtain ⟨ds, hds⟩ :=
      fetchLoop_range pages fuel 1 m h1 (by omega) hsome hnone
    have hm : m - 1 + 1 = m := by omega
    rw [hm] at hds
    exact ⟨ds, hds, List.nodup_range' 1 m 1 (by norm_num)⟩

/-- Claim C3 witness: an API whose pages 1 and 2 carry data and whose page
3 fails with status 404 — both signal forms, the logged page index, and the
requested pages 1, 2, 3 without repetition. -/
theorem pagination_contract_w :
    fetch_data ⟨200, []⟩ = .ok none ∧
    (fetch_data (pagesW3 3) = .ok none ∧
      fetch_log 3 (pagesW3 3) = ["Error: Unable to fetch data from page 3"]) ∧
    (∃ ds, fetchLoop pagesW3 5 1 = .ok (ds, List.range' 1 3) ∧
      (List.range' 1 3).Nodup) := by
  refine ⟨pagination_contract.1 ⟨200, []⟩ rfl rfl,
    pagination_contract.2.1 3 (pagesW3 3) (by decide), ?_⟩
  refine pagination_contract.2.2 pagesW3 3 5 (by norm_num) (by norm_num) ?_ rfl
  intro i hi1 hi3
  interval_cases i
  · exact ⟨_, rfl⟩
  · exact ⟨_, rfl⟩

/-- Claim C6: confirmed.  For every non-empty set of snapshot CSV files in
the snapshot directory, the combined file has a row count equal to the sum
of the row counts of all snapshot CSV files, with no deduplication. -/
theorem combine_row_count (folder : List (String × DataFrame))
    (h : folder.filter (fun p => strEndsWith p.1 ".csv") ≠ []) :
    ∃ df, combine_all_csvs folder = some df ∧
      df.rows.length =
        ((folder.filter (fun p => strEndsWith p.1 ".csv")).map
          (fun p => p.2.rows.length)).sum := by
  unfold combine_all_csvs
  have he : (folder.filter (fun p => strEndsWith p.1 ".csv")).isEmpty = false := by
    rcases hf : folder.filter (fun p => strEndsWith p.1 ".csv") with _ | _
    · exact absurd hf h
    · rw [hf]
      rfl
  simp only [he, Bool.false_eq_true, if_false]
  refine ⟨_, rfl, ?_⟩
  simp only [concatRows, List.length_flatten, List.map_map]
  congr 1

/-- Claim C6 witness: snapshot files of 5, 7 and 2 rows (plus one non-CSV
file, which is ignored) combine into a 14-row file. -/
theorem combine_row_count_w :
    ∃ df, combine_all_csvs folder6 = some df ∧ df.rows.length = 14 := by
  have hne : folder6.filter (fun p => strEndsWith p.1 ".csv") ≠ [] := by
    intro hn
    have hfalse : (folder6.filter (fun p => strEndsWith p.1 ".csv")).isEmpty = false := rfl
    rw [hn] at hfalse
    simp at hfalse
  obtain ⟨df, h1, h2⟩ := combine_row_count folder6 hne
  exact ⟨df, h1, by rw [h2]; rfl⟩

/-- Claim C7: confirmed.  Running the Archive Combiner twice in succession
with no snapshot files added or removed in between produces the identical
combined output (in particular the same column set and row count): the
combined file is written outside the snapshot directory and is never read
back as an input. -/
theorem combine_idempotent (st : ArchiveState) :
    run_combine (run_combine st) = run_combine st := by
  rcases h : combine_all_csvs st.dataFolder with _ | df
  · simp [run_combine, h]
  · simp [run_combine, h]

/-- Claim C9: confirmed.  In every run in which the preceding code raises
no uncaught exception, exactly one heartbeat GET is issued after the main
branch completes — no outcome of the run (no data, data written, combine
skipped) suppresses it. -/
theorem heartbeat_once (pages : Nat → Response) (today : String) (fuel : Nat)
    (st st' : RunState) (h : script_run pages today fuel st = .ok st') :
    st'.heartbeats = st.heartbeats + 1 := by
  unfold script_run at h
  rcases hs : save_combined_data pages today fuel with e | r <;> rw [hs] at h
  · cases h
  · dsimp only at h
    cases h
    by_cases hok : r.ok
    · simp [hok, combine_step_heartbeats, write_step_heartbeats]
    · simp [hok, write_step_heartbeats]

/-- Claim C9 witness: a full run over the two-page API issues exactly one
heartbeat. -/
theorem heartbeat_once_w :
    ∃ st', script_run pagesOK "2025-01-02" 2 st0 = .ok st' ∧ st'.heartbeats = 1 := by
  refine ⟨_, rfl, heartbeat_once pagesOK "2025-01-02" 2 st0 _ rfl⟩

theorem save_ok_cases {pages : Nat → Response} {today : String} {fuel : Nat} {r : SaveResult}
    (h : save_combined_data pages today fuel = .ok r) :
    ∃ all_data reqs, fetchLoop pages fuel 1 = .ok (all_data, reqs) ∧
      ((all_data.isEmpty = true ∧ r = ⟨false, none⟩) ∨
       (all_data.isEmpty = false ∧ ∃ out,
         selectCols (renameCols column_mapping
             (setColumn (concatRows all_data) "datum" (.str today))) required_columns =
           .ok out ∧
         r = ⟨true, some ("office_location_" ++ today ++ ".csv", out)⟩)) := by
  unfold save_combined_data at h
  rcases hfl : fetchLoop pages fuel 1 with e | ⟨all_data, reqs⟩ <;> rw [hfl] at h
  · cases h
  · dsimp only at h
    refine ⟨all_data, reqs, rfl, ?_⟩
    rcases he : all_data.isEmpty with _ | _
    · simp only [he, Bool.false_eq_true, if_false] at h
      rcases hsel : selectCols (renameCols column_mapping
          (setColumn (concatRows all_data) "datum" (.str today))) required_columns
        with e | out <;> rw [hsel] at h
      · cases h
      · dsimp only at h
        cases h
        exact Or.inr ⟨rfl, out, rfl, rfl⟩
    · simp only [he, if_true] at h
      cases h
      exact Or.inl ⟨rfl, rfl⟩

/-- Claim C1 counterexample: a run whose single fetched record lacks the
mapped optional fields.  Page 1 yields data, yet the Snapshot Writer
raises `KeyError` at the column restriction and writes no snapshot table
at all — so it is not the case that every run with data produces a
snapshot with the fixed columns. -/
theorem snapshot_columns_cx :
    (∃ df, fetch_data (pagesCx1 1) = .ok (some df)) ∧
    save_combined_data pagesCx1 "2025-03-01" 2 = .error "KeyError" :=
  ⟨⟨_, rfl⟩, rfl⟩

/-- Claim C1 (amended): whenever the Snapshot Writer does write a snapshot
table, that table has exactly the columns of the fixed mapping, in the
mapping's declared order; when a mapped source column is absent from the
fetched data the writer instead raises `KeyError` and writes nothing. -/
theorem snapshot_columns_contract (pages : Nat → Response) (today : String) (fuel : Nat)
    (r : SaveResult) (name : String) (df : DataFrame)
    (hs : save_combined_data pages today fuel = .ok r)
    (hw : r.written = some (name, df)) :
    df.cols = required_columns := by
  obtain ⟨all_data, reqs, hfl, hcase⟩ := save_ok_cases hs
  rcases hcase with ⟨he, rfl⟩ | ⟨he, out, hsel, rfl⟩
  · simp at hw
  · simp only [Option.some.injEq, Prod.mk.injEq] at hw
    obtain ⟨-, hdf⟩ := hw
    rw [← hdf]
    exact (selectCols_ok hsel).1

/-- Claim C1 witness: the well-formed two-page API produces a snapshot
whose columns are exactly the mapped ones in order. -/
theorem snapshot_columns_contract_w :
    ∃ r name df, save_combined_data pagesOK "2025-01-02" 2 = .ok r ∧
      r.written = some (name, df) ∧ df.cols = required_columns := by
  refine ⟨_, _, _, rfl, rfl, ?_⟩
  exact snapshot_columns_contract pagesOK "2025-01-02" 2 _ _ _ rfl rfl

/-- Claim C5 counterexample: page 1 yields a record carrying only an `id`
field.  At least one page yielded data, yet the Snapshot Writer returns
neither `true` nor `false` — it raises `KeyError` — so "returns true if
and only if at least one page yielded data" fails. -/
theorem save_flag_cx :
    (∃ df, fetch_data (pagesCx5 1) = .ok (some df)) ∧
    save_combined_data pagesCx5 "2025-03-02" 2 = .error "KeyError" :=
  ⟨⟨_, rfl⟩, rfl⟩

/-- Claim C5 (amended): when the Snapshot Writer returns at all (rather
than raising `KeyError`), it returns `true` iff at least one page yielded
data, and it writes a snapshot iff it returns `true`; when zero pages
yield data it returns `false`, writes no snapshot file, the Archive
Combiner is never invoked, and the run state is unchanged except for the
heartbeat. -/
theorem save_flag_contract :
    (∀ (pages : Nat → Response) (today : String) (fuel : Nat) (r : SaveResult),
      save_combined_data pages today fuel = .ok r →
      ∃ all_data reqs, fetchLoop pages fuel 1 = .ok (all_data, reqs) ∧
        (r.ok = true ↔ all_data ≠ []) ∧ (r.written.isSome = true ↔ r.ok = true)) ∧
    (∀ (pages : Nat → Response) (today : String) (fuel : Nat) (st : RunState)
        (reqs : List Nat),
      fetchLoop pages fuel 1 = .ok ([], reqs) →
      save_combined_data pages today fuel = .ok ⟨false, none⟩ ∧
      script_run pages today fuel st = .ok { st with heartbeats := st.heartbeats + 1 }) := by
  constructor
  · intro pages today fuel r h
    obtain ⟨all_data, reqs, hfl, hcase⟩ := save_ok_cases h
    refine ⟨all_data, reqs, hfl, ?_⟩
    rcases hcase with ⟨he, rfl⟩ | ⟨he, out, hsel, rfl⟩
    · have : all_data = [] := List.isEmpty_iff.mp he
      subst this
      simp
    · have : all_data ≠ [] := by
        intro hnil
        rw [hnil] at he
        simp at he
      simp [this]
  · intro pages today fuel st reqs hfl
    have hsave : save_combined_data pages today fuel = .ok ⟨false, none⟩ := by
      unfold save_combined_data
      rw [hfl]
      rfl
    refine ⟨hsave, ?_⟩
    unfold script_run
    rw [hsave]
    rfl

/-- Claim C5 witness: with data on page 1 the writer returns `true` and
writes; with an empty page 1 it returns `false`, writes nothing, and the
run state shows no combine invocation and no new file — only the
heartbeat. -/
theorem save_flag_contract_w :
    (∃ all_data reqs, fetchLoop pagesOK 2 1 = .ok (all_data, reqs) ∧
      ((true : Bool) = true ↔ all_data ≠ []) ∧
      ((some ("office_location_2025-01-02.csv",
        (save_combined_data pagesOK "2025-01-02" 2).toOption.elim (dfR 0)
          (fun r => (r.written.getD ("", dfR 0)).2))).isSome = true ↔ (true : Bool) = true)) ∧
    (save_combined_data pagesNone "2025-01-03" 4 = .ok ⟨false, none⟩ ∧
      script_run pagesNone "2025-01-03" 4 st0 = .ok { st0 with heartbeats := st0.heartbeats + 1 }) := by
  constructor
  · have h := save_flag_contract.1 pagesOK "2025-01-02" 2 _ rfl
    obtain ⟨all_data, reqs, hfl, h2, h3⟩ := h
    exact ⟨all_data, reqs, hfl, h2, by simp⟩
  · exact save_flag_contract.2 pagesNone "2025-01-03" 4 st0 [1] rfl

/-- Claim C8: confirmed.  Every snapshot the writer produces has the
capture-date column `datum` equal to the run's start date in every row,
and the snapshot file name embeds the same date. -/
theorem capture_date_contract (pages : Nat → Response) (today : String) (fuel : Nat)
    (r : SaveResult) (name : String) (df : DataFrame)
    (hs : save_combined_data pages today fuel = .ok r)
    (hw : r.written = some (name, df)) :
    name = "office_location_" ++ today ++ ".csv" ∧
    "datum" ∈ df.cols ∧
    ∀ row ∈ df.rows, Row.get row "datum" = .str today := by
  obtain ⟨all_data, reqs, hfl, hcase⟩ := save_ok_cases hs
  rcases hcase with ⟨he, rfl⟩ | ⟨he, out, hsel, rfl⟩
  · simp at hw
  · simp only [Option.some.injEq, Prod.mk.injEq] at hw
    obtain ⟨hname, hdf⟩ := hw
    subst hdf
    refine ⟨hname.symm, ?_, ?_⟩
    · rw [(selectCols_ok hsel).1]
      decide
    · intro row hrow
      rw [(selectCols_ok hsel).2] at hrow
      simp only [renameCols, setColumn, List.map_map, List.mem_map,
        Function.comp_apply, List.map_cons] at hrow
      obtain ⟨row0, _, hrow0⟩ := hrow
      rw [← hrow0]
      rw [show renameKey column_mapping "datum" = "datum" from rfl]
      exact Row.get_cons_self ..

/-- Claim C8 witness: the snapshot written for the two-page API is named
with the run date and has `datum = "2025-01-02"` in every row. -/
theorem capture_date_contract_w :
    ∃ r name df, save_combined_data pagesOK "2025-01-02" 2 = .ok r ∧
      r.written = some (name, df) ∧
      name = "office_location_" ++ "2025-01-02" ++ ".csv" ∧
      "datum" ∈ df.cols ∧
      ∀ row ∈ df.rows, Row.get row "datum" = .str "2025-01-02" := by
  obtain ⟨h1, h2, h3⟩ := capture_date_contract pagesOK "2025-01-02" 2 _ _ _ rfl rfl
  exact ⟨_, _, _, rfl, rfl, h1, h2, h3⟩

theorem zipPad_flatMap {α : Type} (recs : List α) (f g2 : α → List Row)
    (h : ∀ rec ∈ recs, (f rec).length = (g2 rec).length) :
    zipPad (recs.flatMap f) (recs.flatMap g2) =
      recs.flatMap (fun rec => zipPad (f rec) (g2 rec)) := by
  induction recs with
  | nil => rfl
  | cons a t ih =>
    simp only [List.flatMap_cons]
    rw [zipPad_append _ _ _ _ (h a (List.mem_cons_self ..))]
    rw [ih fun rec hrec => h rec (List.mem_cons_of_mem _ hrec)]

/-- Claim C2: confirmed.  For every fetched page and every record on it
whose address list holds k ≥ 1 entries, the flattened table contains
exactly k rows for that record (the record accounts for exactly k of the
table's rows, at its block of positions), and each of those k rows starts
with the record's own scalar (non-address) fields, so the k rows agree on
every non-address column. -/
theorem row_expansion (pre post : List JVal) (r : JVal) (addrs : List JVal) (df : DataFrame)
    (hr : Row.get (flattenRecord r) "adresser" = .arr addrs)
    (hk : addrs ≠ [])
    (hok : flatten_page (pre ++ r :: post) = .ok df) :
    df.rows.length = ((pre ++ r :: post).map rowMult).sum ∧
    rowMult r = addrs.length ∧
    ∀ i < addrs.length, ∃ ext,
      df.rows[(pre.map rowMult).sum + i]? = some (scalarRow r ++ ext) := by
  have hmult : rowMult r = addrs.length := by
    unfold rowMult
    rw [hr]
    rcases addrs with _ | ⟨a, addrs⟩
    · exact absurd rfl hk
    · rfl
  refine ⟨flatten_page_length hok, hmult, ?_⟩
  intro i hi
  have hmem : "adresser" ∈ (json_normalize (pre ++ r :: post)).cols := by
    refine mem_json_normalize_cols.mpr ⟨r, by simp, ?_⟩
    exact lookup_mem_keys (lookup_some_of_get_arr hr)
  rcases hemp : (pageVals (pre ++ r :: post)).isEmpty with _ | _
  · rw [flatten_page_of_mem hmem hemp] at hok
    cases hok
    simp only [concatCols]
    rw [page_base_rows]
    have hgr : (explodeRow "adresser" (flattenRecord r)).map (removeKey "adresser")
        = addrs.map (fun _ => scalarRow r) := by
      rw [explodeRow_of_arr hr hk, List.map_map]
      refine List.map_congr_left fun a _ => ?_
      simp only [Function.comp_apply]
      rw [removeKey_cons_same]
      rfl
    have hlen : i <
        ((explodeRow "adresser" (flattenRecord r)).map (removeKey "adresser")).length := by
      rw [hgr, List.length_map]
      exact hi
    have hblock := flatMap_block
      (fun rec => (explodeRow "adresser" (flattenRecord rec)).map (removeKey "adresser"))
      pre post r i hlen
    have hoff : (pre.map (fun x =>
        ((explodeRow "adresser" (flattenRecord x)).map (removeKey "adresser")).length)).sum =
        (pre.map rowMult).sum := by
      congr 1
      refine List.map_congr_left fun x _ => ?_
      rw [List.length_map, explodeRow_length]
      rfl
    rw [hoff] at hblock
    have hval : ((pre ++ r :: post).flatMap
        (fun rec => (explodeRow "adresser" (flattenRecord rec)).map (removeKey "adresser")))[
          (pre.map rowMult).sum + i]? = some (scalarRow r) := by
      rw [hblock]
      dsimp only
      rw [hgr, List.getElem?_map, List.getElem?_eq_getElem hi]
      rfl
    exact zipPad_getElem? _ _ _ _ hval
  · rw [flatten_page_error hmem hemp] at hok
    cases hok

/-- Claim C2 witness: on a page holding a one-address record followed by a
two-address record, the two-address record accounts for exactly 2 of the
3 rows, both of which carry its scalar fields. -/
theorem row_expansion_w :
    ∃ df, flatten_page [rec1, rec2] = .ok df ∧
      (df.rows.length = (([rec1, rec2]).map rowMult).sum ∧
       rowMult rec2 = 2 ∧
       ∀ i < 2, ∃ ext,
         df.rows[(([rec1]).map rowMult).sum + i]? = some (scalarRow rec2 ++ ext)) := by
  refine ⟨_, rfl, ?_⟩
  exact row_expansion [rec1] [] rec2 [adr1, adr2] _ rfl (by simp) rfl

/-- Claim C4 counterexample: a page holding a one-address record followed
by a record whose address-list field is absent entirely.  The flattened
table has 2 rows, and its second row carries the address-less record's
fields — that record contributed a row, not zero rows. -/
theorem absent_address_cx :
    ∃ df, flatten_page [recWithAddr, recNoAddr] = .ok df ∧
      df.rows.length = 2 ∧
      df.rows[1]? = some [("id", JVal.int 2)] :=
  ⟨_, rfl, rfl, rfl⟩

/-- Claim C4 (amended): for every fetched page, a record whose
address-list field is absent entirely contributes exactly one row to the
flattened table produced for that page (the row keeps the record's
flattened fields; its address columns are filled positionally, so they may
read NaN or even another record's address details). -/
theorem absent_address_one_row (pre post : List JVal) (r : JVal) (df : DataFrame)
    (hr : List.lookup "adresser" (flattenRecord r) = none)
    (hok : flatten_page (pre ++ r :: post) = .ok df) :
    df.rows.length = ((pre ++ r :: post).map rowMult).sum ∧
    rowMult r = 1 ∧
    ∃ ext, df.rows[(pre.map rowMult).sum]? = some (flattenRecord r ++ ext) := by
  refine ⟨flatten_page_length hok, rowMult_of_lookup_none hr, ?_⟩
  by_cases hmem : "adresser" ∈ (json_normalize (pre ++ r :: post)).cols
  · rcases hemp : (pageVals (pre ++ r :: post)).isEmpty with _ | _
    · rw [flatten_page_of_mem hmem hemp] at hok
      cases hok
      simp only [concatCols]
      rw [page_base_rows]
      have hgr : (explodeRow "adresser" (flattenRecord r)).map (removeKey "adresser")
          = [flattenRecord r] := by
        rw [explodeRow_of_get_nan (get_of_lookup_none hr)]
        simp [removeKey_of_lookup_none hr]
      have hlen : (0 : Nat) <
          ((explodeRow "adresser" (flattenRecord r)).map (removeKey "adresser")).length := by
        rw [hgr]
        simp
      have hblock := flatMap_block
        (fun rec => (explodeRow "adresser" (flattenRecord rec)).map (removeKey "adresser"))
        pre post r 0 hlen
      have hoff : (pre.map (fun x =>
          ((explodeRow "adresser" (flattenRecord x)).map (removeKey "adresser")).length)).sum =
          (pre.map rowMult).sum := by
        congr 1
        refine List.map_congr_left fun x _ => ?_
        rw [List.length_map, explodeRow_length]
        rfl
      rw [hoff, Nat.add_zero] at hblock
      have hval : ((pre ++ r :: post).flatMap
          (fun rec => (explodeRow "adresser" (flattenRecord rec)).map (removeKey "adresser")))[
            (pre.map rowMult).sum]? = some (flattenRecord r) := by
        rw [hblock]
        dsimp only
        rw [hgr]
        rfl
      exact zipPad_getElem? _ _ _ _ hval
    · rw [flatten_page_error hmem hemp] at hok
      cases hok
  · rw [flatten_page_of_not_mem hmem] at hok
    cases hok
    have hoff : (pre.map rowMult).sum = pre.length :=
      sum_map_one _ _ fun x hx => rowMult_of_not_keys hmem (by simp [hx])
    rw [hoff]
    refine ⟨[], ?_⟩
    simp only [json_normalize, List.map_append]
    rw [List.getElem?_append_right (by simp)]
    simp

/-- Claim C4 witness for the amended claim: the address-less record of the
counterexample page contributes exactly one row, at its position, carrying
its own fields. -/
theorem absent_address_one_row_w :
    ∃ df, flatten_page [recWithAddr, recNoAddr] = .ok df ∧
      (df.rows.length = (([recWithAddr, recNoAddr]).map rowMult).sum ∧
       rowMult recNoAddr = 1 ∧
       ∃ ext, df.rows[(([recWithAddr]).map rowMult).sum]? =
         some (flattenRecord recNoAddr ++ ext)) := by
  refine ⟨_, rfl, ?_⟩
  exact absent_address_one_row [recWithAddr] [] recNoAddr _ rfl rfl

/-- Claim C10: confirmed.  The flattener's re-association of expanded
address details with provider rows is purely positional (drop the exploded
`adresser` column, then concatenate the normalized address details by
reset index); when every record of the page carries a non-empty list of
(non-null) addresses, nothing is dropped on the details side, and the
flattened table is exactly: for each record in order, one row per address,
each row being that record's scalar fields followed by that same record's
address details. -/
theorem positional_join_alignment (records : List JVal) (df : DataFrame)
    (hall : ∀ rec ∈ records, ∃ addrs, Row.get (flattenRecord rec) "adresser" = .arr addrs ∧
        addrs ≠ [] ∧ ∀ a ∈ addrs, a.isNan = false)
    (hok : flatten_page records = .ok df) :
    df.rows = records.flatMap (fun rec =>
      (addrsOf rec).map (fun a => scalarRow rec ++ flattenRecord a)) := by
  by_cases hnil : records = []
  · subst hnil
    rw [flatten_page_of_not_mem (by simp [mem_json_normalize_cols])] at hok
    cases hok
    rfl
  · obtain ⟨r0, hr0⟩ := List.exists_mem_of_ne_nil records hnil
    have hmem : "adresser" ∈ (json_normalize records).cols := by
      obtain ⟨addrs, ha, -, -⟩ := hall r0 hr0
      exact mem_json_normalize_cols.mpr
        ⟨r0, hr0, lookup_mem_keys (lookup_some_of_get_arr ha)⟩
    rcases hemp : (pageVals records).isEmpty with _ | _
    · rw [flatten_page_of_mem hmem hemp] at hok
      cases hok
      simp only [concatCols]
      rw [page_base_rows, page_details_rows]
      have hvals : pageVals records = records.flatMap addrsOf := by
        rw [page_vals_eq]
        have hmapped : (records.flatMap fun rec =>
            (explodeRow "adresser" (flattenRecord rec)).map
              (fun row => Row.get row "adresser")) = records.flatMap addrsOf := by
          rw [List.flatMap_def, List.flatMap_def]
          congr 1
          refine List.map_congr_left fun rec hrec => ?_
          obtain ⟨addrs, ha, hne, -⟩ := hall rec hrec
          have haddrs : addrsOf rec = addrs := by
            unfold addrsOf
            rw [ha]
          rw [explodeRow_of_arr ha hne, List.map_map, haddrs]
          conv_rhs => rw [← List.map_id addrs]
          refine List.map_congr_left fun a _ => ?_
          simp only [Function.comp_apply, id_eq]
          exact Row.get_cons_self ..
        rw [hmapped]
        refine List.filter_eq_self.mpr ?_
        intro a ha
        rw [List.mem_flatMap] at ha
        obtain ⟨rec, hrec, hamem⟩ := ha
        obtain ⟨addrs, haeq, -, hnn⟩ := hall rec hrec
        have haddrs : addrsOf rec = addrs := by
          unfold addrsOf
          rw [haeq]
        rw [haddrs] at hamem
        simp [hnn a hamem]
      rw [hvals, List.map_flatMap]
      rw [zipPad_flatMap records _ _ ?hlen]
      case hlen =>
        intro rec hrec
        obtain ⟨addrs, ha, hne, -⟩ := hall rec hrec
        have haddrs : addrsOf rec = addrs := by
          unfold addrsOf
          rw [ha]
        rw [explodeRow_of_arr ha hne, haddrs]
        simp
      rw [List.flatMap_def, List.flatMap_def]
      congr 1
      refine List.map_congr_left fun rec hrec => ?_
      obtain ⟨addrs, ha, hne, -⟩ := hall rec hrec
      have haddrs : addrsOf rec = addrs := by
        unfold addrsOf
        rw [ha]
      have hbase : (explodeRow "adresser" (flattenRecord rec)).map (removeKey "adresser")
          = (addrsOf rec).map (fun _ => scalarRow rec) := by
        rw [explodeRow_of_arr ha hne, List.map_map, haddrs]
        refine List.map_congr_left fun a _ => ?_
        simp only [Function.comp_apply]
        rw [removeKey_cons_same]
        rfl
      rw [hbase, zipPad_map_const]
    · rw [flatten_page_error hmem hemp] at hok
      cases hok

/-- Claim C10 witness: on the page [rec1, rec2] (1 + 2 addresses, none
missing), the three output rows are exactly each provider's scalar fields
joined with that same provider's own address details, in order. -/
theorem positional_join_alignment_w :
    ∃ df, flatten_page [rec1, rec2] = .ok df ∧
      df.rows = ([rec1, rec2]).flatMap (fun rec =>
        (addrsOf rec).map (fun a => scalarRow rec ++ flattenRecord a)) := by
  refine ⟨_, rfl, ?_⟩
  refine positional_join_alignment [rec1, rec2] _ ?_ rfl
  intro rec hrec
  rcases List.mem_cons.mp hrec with rfl | hrec
  · exact ⟨[adr1], rfl, by simp, by
      intro a ha
      rcases List.mem_singleton.mp ha with rfl
      rfl⟩
  · rcases List.mem_cons.mp hrec with rfl | hrec
    · refine ⟨[adr1, adr2], rfl, by simp, ?_⟩
      intro a ha
      rcases List.mem_cons.mp ha with rfl | ha
      · rfl
      · rcases List.mem_singleton.mp ha with rfl
        rfl
    · cases hrec
